import Mathlib

/-!
# Verification of the mapmap geospatial rendering core

A shallow embedding, over the real numbers, of the coordinate-transform
library (`src/utils/geoUtils.ts`), the curve generator
(`src/components/MarkerConnector.tsx`), the instanced marker renderer's
per-frame visibility/LOD pass (`src/components/OptimizedMarkers.tsx`),
the connection resolution in `src/components/Scene.tsx`, and the
screen-anchor visibility computation (`ConnectorCalculator` in
`src/components/UnifiedToolbar.tsx`), together with the three.js
`Vector3`, `Matrix4`, `Plane` and `Frustum` operations those files call.

JavaScript `number`s are modelled as real numbers; the floating-point
tolerance statements of the specification become exact equalities.
-/

open Real

namespace Mapmap

noncomputable section

/-- three.js `Vector3`: a triple of coordinates. -/
structure Vector3 where
  x : ℝ
  y : ℝ
  z : ℝ

namespace Vector3

/-- three.js `Vector3.add` (componentwise). -/
def add (a b : Vector3) : Vector3 := ⟨a.x + b.x, a.y + b.y, a.z + b.z⟩

/-- three.js `Vector3.sub` (componentwise). -/
def sub (a b : Vector3) : Vector3 := ⟨a.x - b.x, a.y - b.y, a.z - b.z⟩

/-- three.js `Vector3.multiplyScalar`. -/
def multiplyScalar (a : Vector3) (s : ℝ) : Vector3 := ⟨a.x * s, a.y * s, a.z * s⟩

/-- three.js `Vector3.dot`. -/
def dot (a b : Vector3) : ℝ := a.x * b.x + a.y * b.y + a.z * b.z

/-- three.js `Vector3.lengthSq`. -/
def lengthSq (a : Vector3) : ℝ := a.x * a.x + a.y * a.y + a.z * a.z

/-- three.js `Vector3.length`: `sqrt(x*x + y*y + z*z)`. -/
def length (a : Vector3) : ℝ := Real.sqrt a.lengthSq

/-- three.js `Vector3.normalize()` is `divideScalar(length() || 1)`:
a zero vector (the only vector of length `0`) is left unchanged. -/
def normalize (a : Vector3) : Vector3 :=
  a.multiplyScalar (1 / (if a.length = 0 then 1 else a.length))

/-- three.js `Vector3.crossVectors`. -/
def cross (a b : Vector3) : Vector3 :=
  ⟨a.y * b.z - a.z * b.y, a.z * b.x - a.x * b.z, a.x * b.y - a.y * b.x⟩

/-- three.js `Vector3.lerp(v, alpha)`: `this + (v - this) * alpha` componentwise. -/
def lerp (a b : Vector3) (alpha : ℝ) : Vector3 :=
  ⟨a.x + (b.x - a.x) * alpha, a.y + (b.y - a.y) * alpha, a.z + (b.z - a.z) * alpha⟩

/-- three.js `Vector3.distanceTo`. -/
def distanceTo (a b : Vector3) : ℝ := (a.sub b).length

/-- three.js `MathUtils.clamp(value, min, max) = max(min, min(max, value))`. -/
def clamp (value lo hi : ℝ) : ℝ := max lo (min hi value)

/-- three.js `Vector3.angleTo`: `acos(clamp(dot / sqrt(lenSq*lenSq), -1, 1))`,
with a `π/2` guard when the denominator vanishes. -/
def angleTo (a b : Vector3) : ℝ :=
  if Real.sqrt (a.lengthSq * b.lengthSq) = 0 then π / 2
  else Real.arccos (clamp (a.dot b / Real.sqrt (a.lengthSq * b.lengthSq)) (-1) 1)

end Vector3

/-- JavaScript `Math.atan2(y, x)`: the argument of the point `(x, y)`,
in `(-π, π]` (the standard atan2 convention, `atan2(0, 0) = 0`). -/
def atan2 (y x : ℝ) : ℝ := Complex.arg (x + y * Complex.I)

/-! ## Coordinate Transform Library (`src/utils/geoUtils.ts`) -/

/-- Function `lonLatToVector3` from `geoUtils.ts`:
`phi = (90 - lat) * π/180`, `theta = (lon + 180) * π/180`,
`x = -(r sin phi cos theta)`, `z = r sin phi sin theta`, `y = r cos phi`. -/
def lonLatToVector3 (lon lat : ℝ) (radius : ℝ := 1) : Vector3 :=
  let phi := (90 - lat) * (π / 180)
  let theta := (lon + 180) * (π / 180)
  { x := -(radius * Real.sin phi * Real.cos theta)
    y := radius * Real.cos phi
    z := radius * Real.sin phi * Real.sin theta }

/-- The record returned by `vector3ToLonLat`. -/
structure GeoCoords where
  latitude : ℝ
  longitude : ℝ

/-- Function `vector3ToLonLat` from `geoUtils.ts`:
`radius = sqrt(x²+y²+z²)`, `phi = acos(y/radius)`, `theta = atan2(z, -x)`,
`latitude = 90 - phi*180/π`, `longitude = theta*180/π - 180`. -/
def vector3ToLonLat (x y z : ℝ) : GeoCoords :=
  let radius := Real.sqrt (x * x + y * y + z * z)
  let phi := Real.arccos (y / radius)
  let theta := atan2 z (-x)
  { latitude := 90 - phi * 180 / π
    longitude := theta * 180 / π - 180 }

/-- Function `lonLatToFlatPosition` from `geoUtils.ts` (equirectangular projection):
`x = (lon/180)*(mapWidth/2)`, `y = (lat/90)*(mapHeight/2)`, `z = 0.01`. -/
def lonLatToFlatPosition (lon lat : ℝ) (mapWidth : ℝ := 4) (mapHeight : ℝ := 2) :
    Vector3 :=
  { x := lon / 180 * (mapWidth / 2)
    y := lat / 90 * (mapHeight / 2)
    z := 0.01 }

/-! ## Basic facts about the transforms -/

theorem Vector3.eq_iff (a b : Vector3) : a = b ↔ a.x = b.x ∧ a.y = b.y ∧ a.z = b.z := by
  cases a; cases b; simp

/-- A point produced by the spherical transform lies at distance `radius`
from the origin (for nonnegative radius). -/
theorem lonLatToVector3_lengthSq (lon lat radius : ℝ) :
    (lonLatToVector3 lon lat radius).lengthSq = radius ^ 2 := by
  have hs := Real.sin_sq_add_cos_sq ((90 - lat) * (π / 180))
  have ht := Real.sin_sq_add_cos_sq ((lon + 180) * (π / 180))
  simp only [lonLatToVector3, Vector3.lengthSq]
  linear_combination (radius ^ 2 * Real.sin ((90 - lat) * (π / 180)) ^ 2) * ht +
    radius ^ 2 * hs

theorem lonLatToVector3_length {radius : ℝ} (hr : 0 ≤ radius) (lon lat : ℝ) :
    (lonLatToVector3 lon lat radius).length = radius := by
  rw [Vector3.length, lonLatToVector3_lengthSq, Real.sqrt_sq hr]

/-- C2 counterexample helper: `lonLatToVector3 0 0 1 = (1, 0, 0)`. -/
theorem lonLatToVector3_zero_zero : lonLatToVector3 0 0 1 = ⟨1, 0, 0⟩ := by
  have h90 : (90 - (0:ℝ)) * (π / 180) = π / 2 := by ring
  have h180 : ((0:ℝ) + 180) * (π / 180) = π := by ring
  simp only [lonLatToVector3, h90, h180, Real.sin_pi_div_two, Real.cos_pi_div_two,
    Real.sin_pi, Real.cos_pi, Vector3.eq_iff]
  norm_num

/-- Evaluation `lonLatToVector3 90 0 1 = (0, 0, -1)` (the code's actual value at B). -/
theorem lonLatToVector3_ninety_zero : lonLatToVector3 90 0 1 = ⟨0, 0, -1⟩ := by
  have h90 : (90 - (0:ℝ)) * (π / 180) = π / 2 := by ring
  have h270 : ((90:ℝ) + 180) * (π / 180) = π + π / 2 := by ring
  simp only [lonLatToVector3, h90, h270, Real.sin_pi_div_two, Real.cos_pi_div_two,
    Real.sin_add, Real.cos_add, Real.sin_pi, Real.cos_pi, Vector3.eq_iff]
  norm_num

/-- C2: the claim asserts `lonLatToVector3(0,0,1) ≈ (-1,0,0)` and
`lonLatToVector3(90,0,1) ≈ (0,0,1)`.  The code actually gives `(1,0,0)`
and `(0,0,-1)`: both expected values are off by a sign, beyond any
reasonable tolerance. -/
theorem lonLatToVector3_convention_cex :
    ¬ |(lonLatToVector3 0 0 1).x - (-1)| ≤ 1e-6 ∧
      ¬ |(lonLatToVector3 90 0 1).z - 1| ≤ 1e-6 := by
  rw [lonLatToVector3_zero_zero, lonLatToVector3_ninety_zero]
  norm_num

/-- C2 (amended): under the code's sign/axis convention,
`lonLatToVector3(0, 0, 1) = (1, 0, 0)` and `lonLatToVector3(90, 0, 1) = (0, 0, -1)`
exactly. -/
theorem lonLatToVector3_convention :
    lonLatToVector3 0 0 1 = ⟨1, 0, 0⟩ ∧ lonLatToVector3 90 0 1 = ⟨0, 0, -1⟩ :=
  ⟨lonLatToVector3_zero_zero, lonLatToVector3_ninety_zero⟩

/-- C9: the flat-map transform is linear with the fixed positive offset
`z = 0.01`: `(0,0) ↦ (0,0,z)`, `(180,90) ↦ (w/2,h/2,z)`,
`(-180,-90) ↦ (-w/2,-h/2,z)`, the same `z` in all three cases. -/
theorem lonLatToFlatPosition_linear (w h : ℝ) :
    lonLatToFlatPosition 0 0 w h = ⟨0, 0, 0.01⟩ ∧
      lonLatToFlatPosition 180 90 w h = ⟨w / 2, h / 2, 0.01⟩ ∧
      lonLatToFlatPosition (-180) (-90) w h = ⟨-(w / 2), -(h / 2), 0.01⟩ ∧
      (0:ℝ) < 0.01 := by
  simp only [lonLatToFlatPosition, Vector3.eq_iff]
  norm_num

/-! ## Round-trip analysis (C1) -/

/-- Function `atan2` is invariant under scaling both arguments by a positive factor. -/
theorem atan2_smul {s : ℝ} (hs : 0 < s) (y x : ℝ) :
    atan2 (s * y) (s * x) = atan2 y x := by
  unfold atan2
  rw [show ((s * x : ℝ) : ℂ) + (s * y : ℝ) * Complex.I
        = (s : ℂ) * ((x : ℝ) + (y : ℝ) * Complex.I) by push_cast; ring]
  exact Complex.arg_real_mul _ hs

/-- On `(-π, π]`, `atan2 (sin θ) (cos θ) = θ`. -/
theorem atan2_sin_cos {θ : ℝ} (h1 : -π < θ) (h2 : θ ≤ π) :
    atan2 (Real.sin θ) (Real.cos θ) = θ := by
  unfold atan2
  rw [Complex.ofReal_cos, Complex.ofReal_sin]
  exact Complex.arg_cos_add_sin_mul_I ⟨h1, h2⟩

/-- C1 (amended): for `lon ∈ [-180,180]`, `lat ∈ (-90,90)`, `r > 0`, the
inverse sphere transform recovers the latitude exactly and the longitude only
up to a 360° wrap: for `lon ∈ [-180, 0]` the longitude is recovered exactly,
while for `lon ∈ (0, 180]` the code returns `lon - 360` (equal modulo 360,
but 360 away from the claimed value `lon`). -/
theorem sphere_roundtrip (lon lat r : ℝ) (hlon1 : -180 ≤ lon) (hlon2 : lon ≤ 180)
    (hlat1 : -90 < lat) (hlat2 : lat < 90) (hr : 0 < r) :
    (vector3ToLonLat (lonLatToVector3 lon lat r).x (lonLatToVector3 lon lat r).y
        (lonLatToVector3 lon lat r).z).latitude = lat ∧
      (lon ≤ 0 →
        (vector3ToLonLat (lonLatToVector3 lon lat r).x (lonLatToVector3 lon lat r).y
            (lonLatToVector3 lon lat r).z).longitude = lon) ∧
      (0 < lon →
        (vector3ToLonLat (lonLatToVector3 lon lat r).x (lonLatToVector3 lon lat r).y
            (lonLatToVector3 lon lat r).z).longitude = lon - 360) := by
  have hpi : (0:ℝ) < π := Real.pi_pos
  have h180pi : (180:ℝ) * (π / 180) = π := by ring
  have h360pi : (360:ℝ) * (π / 180) = 2 * π := by ring
  have hphi0 : 0 < (90 - lat) * (π / 180) := mul_pos (by linarith) (by positivity)
  have hphipi : (90 - lat) * (π / 180) < π := by
    have h : (90 - lat) * (π / 180) < 180 * (π / 180) :=
      mul_lt_mul_of_pos_right (by linarith) (by positivity)
    linarith
  have hQ : (lonLatToVector3 lon lat r).x * (lonLatToVector3 lon lat r).x +
      (lonLatToVector3 lon lat r).y * (lonLatToVector3 lon lat r).y +
      (lonLatToVector3 lon lat r).z * (lonLatToVector3 lon lat r).z = r ^ 2 := by
    have h := lonLatToVector3_lengthSq lon lat r
    simpa [Vector3.lengthSq] using h
  have hx : (lonLatToVector3 lon lat r).x
      = -(r * Real.sin ((90 - lat) * (π / 180)) * Real.cos ((lon + 180) * (π / 180))) := rfl
  have hy : (lonLatToVector3 lon lat r).y = r * Real.cos ((90 - lat) * (π / 180)) := rfl
  have hz : (lonLatToVector3 lon lat r).z
      = r * Real.sin ((90 - lat) * (π / 180)) * Real.sin ((lon + 180) * (π / 180)) := rfl
  have hs : 0 < r * Real.sin ((90 - lat) * (π / 180)) :=
    mul_pos hr (Real.sin_pos_of_pos_of_lt_pi hphi0 hphipi)
  simp only [vector3ToLonLat]
  rw [hQ, Real.sqrt_sq hr.le, hx, hy, hz, neg_neg,
    mul_div_assoc, mul_div_cancel_left₀ _ hr.ne', Real.arccos_cos hphi0.le hphipi.le,
    atan2_smul hs]
  refine ⟨by field_simp; try ring, fun hneg => ?_, fun hposl => ?_⟩
  · have ht0 : (0:ℝ) ≤ (lon + 180) * (π / 180) := mul_nonneg (by linarith) (by positivity)
    have htpi : (lon + 180) * (π / 180) ≤ π := by
      have h : (lon + 180) * (π / 180) ≤ 180 * (π / 180) :=
        mul_le_mul_of_nonneg_right (by linarith) (by positivity)
      linarith
    rw [atan2_sin_cos (by linarith) htpi]
    field_simp
    try ring
  · have htlo : π < (lon + 180) * (π / 180) := by
      have h : 180 * (π / 180) < (lon + 180) * (π / 180) :=
        mul_lt_mul_of_pos_right (by linarith) (by positivity)
      linarith
    have hthi : (lon + 180) * (π / 180) ≤ 2 * π := by
      have h : (lon + 180) * (π / 180) ≤ 360 * (π / 180) :=
        mul_le_mul_of_nonneg_right (by linarith) (by positivity)
      linarith
    rw [show Real.sin ((lon + 180) * (π / 180))
          = Real.sin ((lon + 180) * (π / 180) - 2 * π) from
        (Real.sin_sub_two_pi _).symm,
      show Real.cos ((lon + 180) * (π / 180))
          = Real.cos ((lon + 180) * (π / 180) - 2 * π) from
        (Real.cos_sub_two_pi _).symm,
      atan2_sin_cos (by linarith) (by linarith)]
    field_simp
    try ring

/-- C1 witness: at `lon = -90, lat = 0, r = 1` the round trip is exact. -/
theorem sphere_roundtrip_witness :
    (-180 ≤ (-90:ℝ)) ∧ ((-90:ℝ) ≤ 180) ∧ (-90 < (0:ℝ)) ∧ ((0:ℝ) < 90) ∧
      ((0:ℝ) < 1) ∧ ((-90:ℝ) ≤ 0) ∧
      (vector3ToLonLat (lonLatToVector3 (-90) 0 1).x (lonLatToVector3 (-90) 0 1).y
          (lonLatToVector3 (-90) 0 1).z).latitude = 0 ∧
      (vector3ToLonLat (lonLatToVector3 (-90) 0 1).x (lonLatToVector3 (-90) 0 1).y
          (lonLatToVector3 (-90) 0 1).z).longitude = -90 := by
  refine ⟨by norm_num, by norm_num, by norm_num, by norm_num, by norm_num, by norm_num, ?_, ?_⟩
  · exact (sphere_roundtrip (-90) 0 1 (by norm_num) (by norm_num) (by norm_num)
      (by norm_num) (by norm_num)).1
  · exact (sphere_roundtrip (-90) 0 1 (by norm_num) (by norm_num) (by norm_num)
      (by norm_num) (by norm_num)).2.1 (by norm_num)

/-- C1 counterexample: at `lon = 90, lat = 0, r = 1` the inverse transform
returns longitude `-270`, which is 360 away from the claimed `90` — far
outside the 1e-6 tolerance. -/
theorem sphere_roundtrip_cex :
    (vector3ToLonLat (lonLatToVector3 90 0 1).x (lonLatToVector3 90 0 1).y
        (lonLatToVector3 90 0 1).z).longitude = -270 ∧
      ¬ |(vector3ToLonLat (lonLatToVector3 90 0 1).x (lonLatToVector3 90 0 1).y
          (lonLatToVector3 90 0 1).z).longitude - 90| ≤ 1e-6 := by
  have hpi : (0:ℝ) < π := Real.pi_pos
  have hv := lonLatToVector3_ninety_zero
  have hlon : (vector3ToLonLat (lonLatToVector3 90 0 1).x (lonLatToVector3 90 0 1).y
      (lonLatToVector3 90 0 1).z).longitude = -270 := by
    rw [hv]
    show atan2 (-1) (-(0:ℝ)) * 180 / π - 180 = -270
    have hI : ((-(0:ℝ) : ℝ) : ℂ) + ((-1 : ℝ) : ℂ) * Complex.I = -Complex.I := by
      push_cast
      ring
    unfold atan2
    rw [hI, Complex.arg_neg_I]
    field_simp
    ring
  refine ⟨hlon, ?_⟩
  rw [hlon]
  norm_num

/-! ## Curve Generator (`src/components/MarkerConnector.tsx`) -/

/-- three.js quadratic Bezier interpolation (one component):
`(1-t)² p0 + 2(1-t)t p1 + t² p2`. -/
def quadraticBezier (t p0 p1 p2 : ℝ) : ℝ :=
  (1 - t) * (1 - t) * p0 + 2 * (1 - t) * t * p1 + t * t * p2

/-- three.js `QuadraticBezierCurve3.getPoint`. -/
def bezierPoint (v0 v1 v2 : Vector3) (t : ℝ) : Vector3 :=
  ⟨quadraticBezier t v0.x v1.x v2.x, quadraticBezier t v0.y v1.y v2.y,
    quadraticBezier t v0.z v1.z v2.z⟩

/-- three.js `Curve.getPoints(divisions)`: samples at `t = d/divisions`,
`d = 0, …, divisions` (hence `divisions + 1` points). -/
def bezierPoints (v0 v1 v2 : Vector3) (divisions : ℕ) : List Vector3 :=
  (List.range (divisions + 1)).map fun d : ℕ => bezierPoint v0 v1 v2 ((d : ℝ) / (divisions : ℝ))

/-- The fallback perpendicular axis used by `MarkerConnector` for exact
antipodes: the up-axis `(0,1,0)` when `|start.y| < 0.9`, else `(1,0,0)`. -/
def arbitraryAxis (startVec : Vector3) : Vector3 :=
  if |startVec.y| < 0.9 then ⟨0, 1, 0⟩ else ⟨1, 0, 0⟩

/-- Control point of the spherical-mode connector
(`MarkerConnector.tsx`, lines 95–120). -/
def sphericalControlPoint (startVec endVec : Vector3) (radius : ℝ) : Vector3 :=
  let angle := startVec.angleTo endVec
  if angle > π * 0.95 then
    let cross0 := startVec.cross endVec
    let cross1 :=
      if cross0.length < 0.001 then startVec.cross (arbitraryAxis startVec) else cross0
    cross1.normalize.multiplyScalar radius
  else
    let arcHeight := min (Real.sin (angle / 2) * 0.3) 0.3
    ((startVec.lerp endVec 0.5).normalize).multiplyScalar (radius + arcHeight)

/-- The `useMemo` body of `MarkerConnector`: the connector polyline and the
label position (curve point at `t = 0.5`; chord midpoint in flat mode). -/
def markerConnectorGeometry (isFlat : Bool) (fromLon fromLat toLon toLat : ℝ)
    (radius : ℝ := 1.02) (mapWidth : ℝ := 4) (mapHeight : ℝ := 2) :
    List Vector3 × Vector3 :=
  if isFlat then
    let startVec := lonLatToFlatPosition fromLon fromLat mapWidth mapHeight
    let endVec := lonLatToFlatPosition toLon toLat mapWidth mapHeight
    ([startVec, endVec], (startVec.add endVec).multiplyScalar 0.5)
  else
    let startVec := lonLatToVector3 fromLon fromLat radius
    let endVec := lonLatToVector3 toLon toLat radius
    let controlPoint := sphericalControlPoint startVec endVec radius
    (bezierPoints startVec controlPoint endVec 10,
      bezierPoint startVec controlPoint endVec 0.5)

/-! ### Generic facts about the vector operations -/

theorem Vector3.length_nonneg (a : Vector3) : 0 ≤ a.length :=
  Real.sqrt_nonneg _

theorem Vector3.length_multiplyScalar (a : Vector3) (s : ℝ) :
    (a.multiplyScalar s).length = |s| * a.length := by
  unfold Vector3.length Vector3.lengthSq Vector3.multiplyScalar
  rw [show a.x * s * (a.x * s) + a.y * s * (a.y * s) + a.z * s * (a.z * s)
        = s ^ 2 * (a.x * a.x + a.y * a.y + a.z * a.z) by ring,
    Real.sqrt_mul (sq_nonneg s), Real.sqrt_sq_eq_abs]

theorem Vector3.normalize_length {a : Vector3} (h : a.length ≠ 0) :
    a.normalize.length = 1 := by
  have hpos : 0 < a.length := lt_of_le_of_ne a.length_nonneg (Ne.symm h)
  unfold Vector3.normalize
  rw [Vector3.length_multiplyScalar, if_neg h, abs_of_nonneg (by positivity)]
  field_simp

theorem Vector3.angleTo_nonneg (a b : Vector3) : 0 ≤ a.angleTo b := by
  unfold Vector3.angleTo
  split
  · positivity
  · exact Real.arccos_nonneg _

theorem Vector3.angleTo_le_pi (a b : Vector3) : a.angleTo b ≤ π := by
  unfold Vector3.angleTo
  split
  · linarith [Real.pi_pos]
  · exact Real.arccos_le_pi _

theorem bezierPoint_zero (v0 v1 v2 : Vector3) : bezierPoint v0 v1 v2 0 = v0 := by
  simp only [bezierPoint, quadraticBezier, Vector3.eq_iff]
  refine ⟨by ring, by ring, by ring⟩

theorem bezierPoint_one (v0 v1 v2 : Vector3) : bezierPoint v0 v1 v2 1 = v2 := by
  simp only [bezierPoint, quadraticBezier, Vector3.eq_iff]
  refine ⟨by ring, by ring, by ring⟩

theorem bezierPoints_head (v0 v1 v2 : Vector3) (n : ℕ) :
    (bezierPoints v0 v1 v2 n).head? = some v0 := by
  unfold bezierPoints
  rw [List.range_succ_eq_map]
  simp [bezierPoint_zero]

theorem bezierPoints_last (v0 v1 v2 : Vector3) (n : ℕ) (hn : n ≠ 0) :
    (bezierPoints v0 v1 v2 n).getLast? = some v2 := by
  unfold bezierPoints
  rw [List.range_succ, List.map_append, List.map_cons, List.map_nil, List.getLast?_concat]
  have : ((n : ℝ) / (n : ℝ)) = 1 := by
    field_simp
  rw [this, bezierPoint_one]

theorem lerp_half_lengthSq (a b : Vector3) :
    (a.lerp b 0.5).lengthSq = (a.lengthSq + 2 * a.dot b + b.lengthSq) / 4 := by
  unfold Vector3.lerp Vector3.lengthSq Vector3.dot
  ring

/-- For two points of the sphere transform, `angleTo` has denominator `r²`. -/
theorem angleTo_lonLat (fromLon fromLat toLon toLat r : ℝ) (hr : 0 < r) :
    (lonLatToVector3 fromLon fromLat r).angleTo (lonLatToVector3 toLon toLat r)
      = Real.arccos (Vector3.clamp
          ((lonLatToVector3 fromLon fromLat r).dot (lonLatToVector3 toLon toLat r) / r ^ 2)
          (-1) 1) := by
  unfold Vector3.angleTo
  rw [lonLatToVector3_lengthSq, lonLatToVector3_lengthSq,
    show (r ^ 2 * r ^ 2 : ℝ) = (r ^ 2) ^ 2 by ring, Real.sqrt_sq (by positivity),
    if_neg (pow_ne_zero 2 hr.ne')]

/-- If the angle between two sphere points is strictly below `π`, their dot
product is strictly above `-r²` (so the chord midpoint is nonzero). -/
theorem lonLat_dot_gt_neg_sq {fromLon fromLat toLon toLat r : ℝ} (hr : 0 < r)
    (hθ : (lonLatToVector3 fromLon fromLat r).angleTo (lonLatToVector3 toLon toLat r) < π) :
    -(r ^ 2) < (lonLatToVector3 fromLon fromLat r).dot (lonLatToVector3 toLon toLat r) := by
  by_contra hle
  push_neg at hle
  have hr2 : (0:ℝ) < r ^ 2 := by positivity
  have hdiv : (lonLatToVector3 fromLon fromLat r).dot (lonLatToVector3 toLon toLat r) / r ^ 2
      ≤ -1 := by
    rw [div_le_iff₀ hr2]
    linarith
  have hclamp : Vector3.clamp
      ((lonLatToVector3 fromLon fromLat r).dot (lonLatToVector3 toLon toLat r) / r ^ 2)
      (-1) 1 = -1 := by
    unfold Vector3.clamp
    rw [min_eq_right (le_trans hdiv (by norm_num)), max_eq_left hdiv]
  rw [angleTo_lonLat fromLon fromLat toLon toLat r hr, hclamp, Real.arccos_neg_one] at hθ
  exact lt_irrefl π hθ

/-- C4: in the normal regime (`θ ≤ 0.95π`) the spherical connector's control
point is the re-normalized linear blend of the endpoint vectors at `t = 0.5`
scaled to length exactly `radius + min(sin(θ/2)*0.3, 0.3)`, and the sampled
curve starts at the sphere projection of the first GeoPoint and ends at that
of the second. -/
theorem spherical_connector_normal (fromLon fromLat toLon toLat r w h : ℝ) (hr : 0 < r)
    (hθ : (lonLatToVector3 fromLon fromLat r).angleTo (lonLatToVector3 toLon toLat r)
        ≤ π * 0.95) :
    sphericalControlPoint (lonLatToVector3 fromLon fromLat r) (lonLatToVector3 toLon toLat r) r
        = (((lonLatToVector3 fromLon fromLat r).lerp (lonLatToVector3 toLon toLat r)
              0.5).normalize).multiplyScalar
            (r + min (Real.sin ((lonLatToVector3 fromLon fromLat r).angleTo
                (lonLatToVector3 toLon toLat r) / 2) * 0.3) 0.3) ∧
      (sphericalControlPoint (lonLatToVector3 fromLon fromLat r)
            (lonLatToVector3 toLon toLat r) r).length
        = r + min (Real.sin ((lonLatToVector3 fromLon fromLat r).angleTo
            (lonLatToVector3 toLon toLat r) / 2) * 0.3) 0.3 ∧
      (markerConnectorGeometry false fromLon fromLat toLon toLat r w h).1.head?
        = some (lonLatToVector3 fromLon fromLat r) ∧
      (markerConnectorGeometry false fromLon fromLat toLon toLat r w h).1.getLast?
        = some (lonLatToVector3 toLon toLat r) := by
  set a := lonLatToVector3 fromLon fromLat r with ha
  set b := lonLatToVector3 toLon toLat r with hb
  have hang0 : 0 ≤ a.angleTo b := Vector3.angleTo_nonneg a b
  have hangpi : a.angleTo b ≤ π := Vector3.angleTo_le_pi a b
  have hpi : (0:ℝ) < π := Real.pi_pos
  have hsin : 0 ≤ Real.sin (a.angleTo b / 2) :=
    Real.sin_nonneg_of_nonneg_of_le_pi (by linarith) (by linarith)
  have harc : 0 ≤ min (Real.sin (a.angleTo b / 2) * 0.3) 0.3 :=
    le_min (mul_nonneg hsin (by norm_num)) (by norm_num)
  have hcp : sphericalControlPoint a b r
      = ((a.lerp b 0.5).normalize).multiplyScalar
          (r + min (Real.sin (a.angleTo b / 2) * 0.3) 0.3) := by
    simp only [sphericalControlPoint]
    rw [if_neg (not_lt.mpr hθ)]
  have hd : -(r ^ 2) < a.dot b := by
    rw [ha, hb]
    exact lonLat_dot_gt_neg_sq hr (by rw [← ha, ← hb]; nlinarith)
  have haL : a.lengthSq = r ^ 2 := by rw [ha]; exact lonLatToVector3_lengthSq _ _ _
  have hbL : b.lengthSq = r ^ 2 := by rw [hb]; exact lonLatToVector3_lengthSq _ _ _
  have hmidpos : 0 < (a.lerp b 0.5).lengthSq := by
    rw [lerp_half_lengthSq, haL, hbL]
    linarith
  have hmidne : (a.lerp b 0.5).length ≠ 0 := by
    rw [Vector3.length]
    exact (Real.sqrt_pos.mpr hmidpos).ne'
  have hgeom : (markerConnectorGeometry false fromLon fromLat toLon toLat r w h).1
      = bezierPoints a (sphericalControlPoint a b r) b 10 := by
    simp only [markerConnectorGeometry, Bool.false_eq_true, if_false, ← ha, ← hb]
  refine ⟨hcp, ?_, ?_, ?_⟩
  · rw [hcp, Vector3.length_multiplyScalar, Vector3.normalize_length hmidne, mul_one,
      abs_of_nonneg (by linarith)]
  · rw [hgeom]
    exact bezierPoints_head _ _ _ _
  · rw [hgeom]
    exact bezierPoints_last _ _ _ _ (by norm_num)

/-- C4 witness: markers at `(0,0)` and `(90,0)` with `r = 1` subtend `θ = π/2`. -/
theorem spherical_connector_normal_witness :
    (0:ℝ) < 1 ∧
      (lonLatToVector3 0 0 1).angleTo (lonLatToVector3 90 0 1) ≤ π * 0.95 ∧
      (sphericalControlPoint (lonLatToVector3 0 0 1) (lonLatToVector3 90 0 1) 1).length
        = 1 + min (Real.sin ((lonLatToVector3 0 0 1).angleTo (lonLatToVector3 90 0 1) / 2)
            * 0.3) 0.3 ∧
      (markerConnectorGeometry false 0 0 90 0 1 4 2).1.head? = some (lonLatToVector3 0 0 1) ∧
      (markerConnectorGeometry false 0 0 90 0 1 4 2).1.getLast?
        = some (lonLatToVector3 90 0 1) := by
  have hang : (lonLatToVector3 0 0 1).angleTo (lonLatToVector3 90 0 1) = π / 2 := by
    rw [lonLatToVector3_zero_zero, lonLatToVector3_ninety_zero]
    unfold Vector3.angleTo Vector3.lengthSq Vector3.dot Vector3.clamp
    norm_num [Real.arccos_zero]
  have hθ : (lonLatToVector3 0 0 1).angleTo (lonLatToVector3 90 0 1) ≤ π * 0.95 := by
    rw [hang]
    nlinarith [Real.pi_pos]
  have h := spherical_connector_normal 0 0 90 0 1 4 2 (by norm_num) hθ
  exact ⟨by norm_num, hθ, h.2.1, h.2.2.1, h.2.2.2⟩

/-- C6: in flat mode the connector is exactly the two flat-map projections of
the endpoints, in order (a straight two-point segment). -/
theorem flat_connector_points (fromLon fromLat toLon toLat r w h : ℝ) :
    (markerConnectorGeometry true fromLon fromLat toLon toLat r w h).1
        = [lonLatToFlatPosition fromLon fromLat w h, lonLatToFlatPosition toLon toLat w h] ∧
      (markerConnectorGeometry true fromLon fromLat toLon toLat r w h).1.length = 2 := by
  constructor <;> rfl

/-- Evaluation `lonLatToVector3 0 0 1.02 = (1.02, 0, 0)`. -/
theorem lonLatToVector3_anti_start : lonLatToVector3 0 0 1.02 = ⟨1.02, 0, 0⟩ := by
  have h90 : (90 - (0:ℝ)) * (π / 180) = π / 2 := by ring
  have h180 : ((0:ℝ) + 180) * (π / 180) = π := by ring
  simp only [lonLatToVector3, h90, h180, Real.sin_pi_div_two, Real.cos_pi_div_two,
    Real.sin_pi, Real.cos_pi, Vector3.eq_iff]
  norm_num

/-- Evaluation `lonLatToVector3 180 0 1.02 = (-1.02, 0, 0)`. -/
theorem lonLatToVector3_anti_end : lonLatToVector3 180 0 1.02 = ⟨-1.02, 0, 0⟩ := by
  have h90 : (90 - (0:ℝ)) * (π / 180) = π / 2 := by ring
  have h360 : ((180:ℝ) + 180) * (π / 180) = 2 * π := by ring
  simp only [lonLatToVector3, h90, h360, Real.sin_pi_div_two, Real.cos_pi_div_two,
    Real.sin_two_pi, Real.cos_two_pi, Vector3.eq_iff]
  norm_num

/-- The control point computed for the exact antipodes `(1.02,0,0)` and
`(-1.02,0,0)`: the cross product degenerates, the up-axis is chosen, and the
control point is `(0, 0, 1.02)`. -/
theorem antipodal_control_point :
    sphericalControlPoint ⟨1.02, 0, 0⟩ ⟨-1.02, 0, 0⟩ 1.02 = ⟨0, 0, 1.02⟩ := by
  have hang : Vector3.angleTo ⟨1.02, 0, 0⟩ ⟨-1.02, 0, 0⟩ = π := by
    unfold Vector3.angleTo Vector3.lengthSq Vector3.dot Vector3.clamp
    rw [show ((1.02:ℝ) * 1.02 + 0 * 0 + 0 * 0) * (-1.02 * -1.02 + 0 * 0 + 0 * 0)
          = 1.0404 ^ 2 by norm_num, Real.sqrt_sq (by norm_num)]
    rw [if_neg (by norm_num)]
    norm_num [Real.arccos_neg_one]
  have hgt : Vector3.angleTo ⟨1.02, 0, 0⟩ ⟨-1.02, 0, 0⟩ > π * 0.95 := by
    rw [hang]
    nlinarith [Real.pi_pos]
  have hcross : Vector3.cross ⟨1.02, 0, 0⟩ ⟨-1.02, 0, 0⟩ = ⟨0, 0, 0⟩ := by
    unfold Vector3.cross
    norm_num
  have hcrosslen : (Vector3.cross ⟨1.02, 0, 0⟩ ⟨-1.02, 0, 0⟩).length < 0.001 := by
    rw [hcross]
    unfold Vector3.length Vector3.lengthSq
    norm_num
  have haxis : arbitraryAxis ⟨1.02, 0, 0⟩ = ⟨0, 1, 0⟩ := by
    unfold arbitraryAxis
    rw [if_pos (by norm_num)]
  simp only [sphericalControlPoint]
  rw [if_pos hgt, if_pos hcrosslen, haxis]
  show ((Vector3.cross ⟨1.02, 0, 0⟩ ⟨0, 1, 0⟩).normalize).multiplyScalar 1.02 = ⟨0, 0, 1.02⟩
  rw [show Vector3.cross ⟨1.02, 0, 0⟩ ⟨0, 1, 0⟩ = ⟨0, 0, 1.02⟩ by
    unfold Vector3.cross; norm_num]
  have hlen : (Vector3.mk 0 0 1.02).length = 1.02 := by
    unfold Vector3.length Vector3.lengthSq
    rw [show ((0:ℝ) * 0 + 0 * 0 + 1.02 * 1.02) = 1.02 ^ 2 by norm_num,
      Real.sqrt_sq (by norm_num)]
  unfold Vector3.normalize Vector3.multiplyScalar
  rw [hlen, if_neg (by norm_num)]
  simp only [Vector3.eq_iff]
  norm_num

/-- C5: on the exact antipodal pair `(0,0)`–`(180,0)` (spherical mode,
default radius 1.02) the curve generator returns a fully determined, finite
point sequence — computed here in closed form — with all 11 samples and the
`t = 0.5` midpoint explicit; the degenerate cross product is replaced using
the deterministic fallback axis, which is `(0,1,0)` when `|start.y| < 0.9`
and `(1,0,0)` otherwise. -/
theorem antipodal_connector_stable :
    markerConnectorGeometry false 0 0 180 0 1.02 4 2
        = ([⟨1.02, 0, 0⟩, ⟨0.816, 0, 0.1836⟩, ⟨0.612, 0, 0.3264⟩, ⟨0.408, 0, 0.4284⟩,
            ⟨0.204, 0, 0.4896⟩, ⟨0, 0, 0.51⟩, ⟨-0.204, 0, 0.4896⟩, ⟨-0.408, 0, 0.4284⟩,
            ⟨-0.612, 0, 0.3264⟩, ⟨-0.816, 0, 0.1836⟩, ⟨-1.02, 0, 0⟩], ⟨0, 0, 0.51⟩) ∧
      arbitraryAxis ⟨1.02, 0, 0⟩ = ⟨0, 1, 0⟩ ∧
      arbitraryAxis ⟨0, 1.02, 0⟩ = ⟨1, 0, 0⟩ := by
  refine ⟨?_, by unfold arbitraryAxis; rw [if_pos (by norm_num)],
    by unfold arbitraryAxis; rw [if_neg (by rw [show |(1.02:ℝ)| = 1.02 from abs_of_nonneg (by norm_num)]; norm_num)]⟩
  have h1 := lonLatToVector3_anti_start
  have h2 := lonLatToVector3_anti_end
  simp only [markerConnectorGeometry, Bool.false_eq_true, if_false, h1, h2,
    antipodal_control_point]
  rw [show bezierPoints ⟨1.02, 0, 0⟩ ⟨0, 0, 1.02⟩ ⟨-1.02, 0, 0⟩ 10
        = (List.range 11).map
            (fun d : ℕ => bezierPoint ⟨1.02, 0, 0⟩ ⟨0, 0, 1.02⟩ ⟨-1.02, 0, 0⟩
              ((d : ℝ) / 10)) from by norm_num [bezierPoints],
    show List.range 11 = [0, 1, 2, 3, 4, 5, 6, 7, 8, 9, 10] from rfl]
  simp only [List.map_cons, List.map_nil, Prod.mk.injEq, List.cons.injEq, and_true,
    List.nil_eq, Vector3.eq_iff, bezierPoint, quadraticBezier]
  norm_num

/-! ## Marker Batch Renderer (`src/components/OptimizedMarkers.tsx`) -/

open scoped Classical

/-- three.js `Matrix4`, column-major elements `te[0..15]`
(columns 0–2: linear block; elements 12–14: translation). -/
structure Matrix4 where
  e0 : ℝ
  e1 : ℝ
  e2 : ℝ
  e3 : ℝ
  e4 : ℝ
  e5 : ℝ
  e6 : ℝ
  e7 : ℝ
  e8 : ℝ
  e9 : ℝ
  e10 : ℝ
  e11 : ℝ
  e12 : ℝ
  e13 : ℝ
  e14 : ℝ
  e15 : ℝ

/-- Constructor `new THREE.Matrix4()` (the identity). -/
def Matrix4.identity : Matrix4 := ⟨1, 0, 0, 0, 0, 1, 0, 0, 0, 0, 1, 0, 0, 0, 0, 1⟩

/-- three.js `Matrix4.scale(v)`: multiplies column 0 by `v.x`, column 1 by
`v.y`, column 2 by `v.z`; the translation column is untouched. -/
def Matrix4.scale (m : Matrix4) (v : Vector3) : Matrix4 :=
  { m with
    e0 := m.e0 * v.x, e1 := m.e1 * v.x, e2 := m.e2 * v.x, e3 := m.e3 * v.x,
    e4 := m.e4 * v.y, e5 := m.e5 * v.y, e6 := m.e6 * v.y, e7 := m.e7 * v.y,
    e8 := m.e8 * v.z, e9 := m.e9 * v.z, e10 := m.e10 * v.z, e11 := m.e11 * v.z }

/-- three.js `Matrix4.setPosition`. -/
def Matrix4.setPosition (m : Matrix4) (p : Vector3) : Matrix4 :=
  { m with e12 := p.x, e13 := p.y, e14 := p.z }

/-- three.js `Vector3.setFromMatrixPosition`: reads the translation column. -/
def Matrix4.setFromMatrixPosition (m : Matrix4) : Vector3 := ⟨m.e12, m.e13, m.e14⟩

/-- The matrix written for an instance by the rebuild effect
(`OptimizedMarkers.tsx` lines 99–119): the reused `Matrix4` starts as the
identity and only `setPosition` is ever applied to it, so every instance's
stored matrix is the identity with translation `pos`. -/
def initMatrix (pos : Vector3) : Matrix4 := Matrix4.identity.setPosition pos

/-- three.js `Plane` (normal components and constant). -/
structure Plane where
  nx : ℝ
  ny : ℝ
  nz : ℝ
  constant : ℝ

/-- three.js `Plane.distanceToPoint`: `normal · p + constant`. -/
def Plane.distanceToPoint (pl : Plane) (p : Vector3) : ℝ :=
  pl.nx * p.x + pl.ny * p.y + pl.nz * p.z + pl.constant

/-- three.js `Plane.normalize`: all four components are multiplied by
`1 / |normal|`. -/
def Plane.normalize (pl : Plane) : Plane :=
  ⟨pl.nx * (1 / Real.sqrt (pl.nx * pl.nx + pl.ny * pl.ny + pl.nz * pl.nz)),
    pl.ny * (1 / Real.sqrt (pl.nx * pl.nx + pl.ny * pl.ny + pl.nz * pl.nz)),
    pl.nz * (1 / Real.sqrt (pl.nx * pl.nx + pl.ny * pl.ny + pl.nz * pl.nz)),
    pl.constant * (1 / Real.sqrt (pl.nx * pl.nx + pl.ny * pl.ny + pl.nz * pl.nz))⟩

/-- A three.js `Frustum` is its list of six planes. -/
abbrev Frustum := List Plane

/-- three.js `Frustum.containsPoint`: false iff some plane has negative
signed distance to the point. -/
def Frustum.containsPoint (frustum : Frustum) (p : Vector3) : Prop :=
  ∀ pl ∈ frustum, ¬ (pl.distanceToPoint p < 0)

/-- three.js `Frustum.setFromProjectionMatrix` (WebGL coordinate system):
the six clip planes extracted from the combined projection matrix, each
normalized. -/
def setFromProjectionMatrix (m : Matrix4) : Frustum :=
  [Plane.normalize ⟨m.e3 - m.e0, m.e7 - m.e4, m.e11 - m.e8, m.e15 - m.e12⟩,
    Plane.normalize ⟨m.e3 + m.e0, m.e7 + m.e4, m.e11 + m.e8, m.e15 + m.e12⟩,
    Plane.normalize ⟨m.e3 + m.e1, m.e7 + m.e5, m.e11 + m.e9, m.e15 + m.e13⟩,
    Plane.normalize ⟨m.e3 - m.e1, m.e7 - m.e5, m.e11 - m.e9, m.e15 - m.e13⟩,
    Plane.normalize ⟨m.e3 - m.e2, m.e7 - m.e6, m.e11 - m.e10, m.e15 - m.e14⟩,
    Plane.normalize ⟨m.e3 + m.e2, m.e7 + m.e6, m.e11 + m.e10, m.e15 + m.e14⟩]

/-- The discrete LOD factor of the per-frame pass: `0.5` beyond camera
distance 5, `0.7` beyond 3, else `1.0`. -/
def lodScale (distance : ℝ) : ℝ :=
  if distance > 5 then 0.5 else if distance > 3 then 0.7 else 1.0

/-- One instance's update in the per-frame visibility/LOD pass
(`OptimizedMarkers.tsx` lines 138–167): read the stored matrix, test its
translation against the frustum, then `matrix.scale(scale)` — composing the
chosen scale multiplicatively with the stored matrix — and store it back. -/
def framePass (frustum : Frustum) (cameraPosition : Vector3) (m : Matrix4) : Matrix4 :=
  if Frustum.containsPoint frustum m.setFromMatrixPosition then
    m.scale ⟨lodScale (cameraPosition.distanceTo m.setFromMatrixPosition),
      lodScale (cameraPosition.distanceTo m.setFromMatrixPosition),
      lodScale (cameraPosition.distanceTo m.setFromMatrixPosition)⟩
  else
    m.scale ⟨0, 0, 0⟩

/-- The identity-basis instance matrix at `pos`, uniformly scaled by `s`. -/
def uniformMatrix (pos : Vector3) (s : ℝ) : Matrix4 :=
  ⟨s, 0, 0, 0, 0, s, 0, 0, 0, 0, s, 0, pos.x, pos.y, pos.z, 1⟩

/-- The whole 3×3 linear block (columns 0–2) of the stored matrix is zero:
the instance is scaled to zero. -/
def Matrix4.scaleZero (m : Matrix4) : Prop :=
  m.e0 = 0 ∧ m.e1 = 0 ∧ m.e2 = 0 ∧ m.e3 = 0 ∧ m.e4 = 0 ∧ m.e5 = 0 ∧
    m.e6 = 0 ∧ m.e7 = 0 ∧ m.e8 = 0 ∧ m.e9 = 0 ∧ m.e10 = 0 ∧ m.e11 = 0

theorem initMatrix_eq_uniform (pos : Vector3) : initMatrix pos = uniformMatrix pos 1 := rfl

theorem framePass_uniform_contains (f : Frustum) (cam pos : Vector3) (s : ℝ)
    (h : Frustum.containsPoint f pos) :
    framePass f cam (uniformMatrix pos s)
      = uniformMatrix pos (s * lodScale (cam.distanceTo pos)) := by
  unfold framePass
  rw [show (uniformMatrix pos s).setFromMatrixPosition = pos from rfl, if_pos (by exact h)]
  unfold Matrix4.scale uniformMatrix
  simp only [Matrix4.mk.injEq]
  norm_num

theorem framePass_uniform_not_contains (f : Frustum) (cam pos : Vector3) (s : ℝ)
    (h : ¬ Frustum.containsPoint f pos) :
    framePass f cam (uniformMatrix pos s) = uniformMatrix pos 0 := by
  unfold framePass
  rw [show (uniformMatrix pos s).setFromMatrixPosition = pos from rfl, if_neg (by exact h)]
  unfold Matrix4.scale uniformMatrix
  simp only [Matrix4.mk.injEq]
  norm_num

/-- C3 (amended): on a pass over a freshly rebuilt (identity-basis) instance
matrix, an in-frustum instance's scale becomes exactly the LOD factor for its
camera distance, and an out-of-frustum instance's scale becomes exactly zero
(on later passes the factor is *multiplied* into the stored matrix instead —
see the counterexample). -/
theorem framePass_fresh (frustum : Frustum) (cam pos : Vector3) :
    (Frustum.containsPoint frustum pos →
        framePass frustum cam (initMatrix pos)
          = uniformMatrix pos (lodScale (cam.distanceTo pos))) ∧
      (¬ Frustum.containsPoint frustum pos →
        framePass frustum cam (initMatrix pos) = uniformMatrix pos 0) := by
  constructor
  · intro h
    rw [initMatrix_eq_uniform, framePass_uniform_contains frustum cam pos 1 h, one_mul]
  · intro h
    rw [initMatrix_eq_uniform, framePass_uniform_not_contains frustum cam pos 1 h]

theorem Plane.normalize_distanceToPoint (pl : Plane) (p : Vector3) :
    (pl.normalize).distanceToPoint p
      = (1 / Real.sqrt (pl.nx * pl.nx + pl.ny * pl.ny + pl.nz * pl.nz))
          * pl.distanceToPoint p := by
  unfold Plane.normalize Plane.distanceToPoint
  ring

theorem normalized_dist_not_neg {pl : Plane} {p : Vector3}
    (h : 0 ≤ pl.distanceToPoint p) :
    ¬ ((pl.normalize).distanceToPoint p < 0) := by
  rw [Plane.normalize_distanceToPoint]
  push_neg
  exact mul_nonneg (one_div_nonneg.mpr (Real.sqrt_nonneg _)) h

theorem normalized_dist_neg {pl : Plane} {p : Vector3}
    (hn : 0 < pl.nx * pl.nx + pl.ny * pl.ny + pl.nz * pl.nz)
    (h : pl.distanceToPoint p < 0) :
    (pl.normalize).distanceToPoint p < 0 := by
  rw [Plane.normalize_distanceToPoint]
  exact mul_neg_of_pos_of_neg (one_div_pos.mpr (Real.sqrt_pos.mpr hn)) h

/-- The combined projection·view matrix of a perspective camera with
fov 90°, aspect 1, near 1, far 9 placed at the origin in default orientation
(so `matrixWorldInverse` is the identity and the product is just the
projection matrix, per three.js `makePerspective`). -/
def persMatrix : Matrix4 := ⟨1, 0, 0, 0, 0, 1, 0, 0, 0, 0, -1.25, -1, 0, 0, -2.25, 0⟩

/-- The view frustum of that camera. -/
def persFrustum : Frustum := setFromProjectionMatrix persMatrix

/-- The point `(0,0,-4)` — centered in view — is inside the frustum. -/
theorem persFrustum_contains_center : Frustum.containsPoint persFrustum ⟨0, 0, -4⟩ := by
  intro pl hpl
  simp only [persFrustum, setFromProjectionMatrix, persMatrix, List.mem_cons,
    List.not_mem_nil, or_false] at hpl
  rcases hpl with rfl | rfl | rfl | rfl | rfl | rfl <;>
    exact normalized_dist_not_neg (by norm_num [Plane.distanceToPoint])

/-- The point `(0,0,-6)` — centered in view, beyond distance 5 — is inside
the frustum. -/
theorem persFrustum_contains_far : Frustum.containsPoint persFrustum ⟨0, 0, -6⟩ := by
  intro pl hpl
  simp only [persFrustum, setFromProjectionMatrix, persMatrix, List.mem_cons,
    List.not_mem_nil, or_false] at hpl
  rcases hpl with rfl | rfl | rfl | rfl | rfl | rfl <;>
    exact normalized_dist_not_neg (by norm_num [Plane.distanceToPoint])

/-- The point `(0,0,4)` — directly behind the camera — fails the near-plane
test, so it is outside the frustum. -/
theorem persFrustum_not_contains_behind :
    ¬ Frustum.containsPoint persFrustum ⟨0, 0, 4⟩ := by
  intro hcon
  have hmem : Plane.normalize
      ⟨persMatrix.e3 + persMatrix.e2, persMatrix.e7 + persMatrix.e6,
        persMatrix.e11 + persMatrix.e10, persMatrix.e15 + persMatrix.e14⟩ ∈ persFrustum := by
    simp [persFrustum, setFromProjectionMatrix]
  refine hcon _ hmem ?_
  exact normalized_dist_neg (by norm_num [persMatrix]) (by norm_num [Plane.distanceToPoint, persMatrix])

theorem distanceTo_origin_negz (d : ℝ) (hd : 0 ≤ d) :
    Vector3.distanceTo ⟨0, 0, 0⟩ ⟨0, 0, -d⟩ = d := by
  unfold Vector3.distanceTo Vector3.sub Vector3.length Vector3.lengthSq
  rw [show ((0:ℝ) - 0) * ((0:ℝ) - 0) + ((0:ℝ) - 0) * ((0:ℝ) - 0)
        + ((0:ℝ) - -d) * ((0:ℝ) - -d) = d ^ 2 by ring, Real.sqrt_sq hd]

/-- C3 counterexample: with the concrete perspective camera, a marker at
`(0,0,-6)` stays inside the frustum at distance 6 (LOD factor 0.5) on both of
two consecutive passes, yet after the second pass its stored scale is
`0.25 ≠ 0.5` — the pass multiplies the factor into the stored matrix rather
than setting it. -/
theorem lod_pass_cex :
    Frustum.containsPoint persFrustum ⟨0, 0, -6⟩ ∧
      lodScale (Vector3.distanceTo ⟨0, 0, 0⟩ ⟨0, 0, -6⟩) = 0.5 ∧
      (framePass persFrustum ⟨0, 0, 0⟩
          (framePass persFrustum ⟨0, 0, 0⟩ (initMatrix ⟨0, 0, -6⟩))).e0 = 0.25 ∧
      ((0.25 : ℝ) ≠ 0.5) := by
  have hd : Vector3.distanceTo ⟨0, 0, 0⟩ ⟨0, 0, -6⟩ = 6 := by
    rw [show (Vector3.mk 0 0 (-6)) = ⟨0, 0, -(6:ℝ)⟩ from rfl]
    exact distanceTo_origin_negz 6 (by norm_num)
  have hlod : lodScale (Vector3.distanceTo ⟨0, 0, 0⟩ ⟨0, 0, -6⟩) = 0.5 := by
    rw [hd]
    unfold lodScale
    rw [if_pos (by norm_num)]
  have h1 : framePass persFrustum ⟨0, 0, 0⟩ (initMatrix ⟨0, 0, -6⟩)
      = uniformMatrix ⟨0, 0, -6⟩ 0.5 := by
    rw [initMatrix_eq_uniform,
      framePass_uniform_contains _ _ _ _ persFrustum_contains_far, hlod]
    norm_num
  have h2 : framePass persFrustum ⟨0, 0, 0⟩ (uniformMatrix ⟨0, 0, -6⟩ 0.5)
      = uniformMatrix ⟨0, 0, -6⟩ 0.25 := by
    rw [framePass_uniform_contains _ _ _ _ persFrustum_contains_far, hlod]
    norm_num
  refine ⟨persFrustum_contains_far, hlod, ?_, by norm_num⟩
  rw [h1, h2]
  rfl

/-- C3 witness: with the concrete perspective camera, a centered marker at
`(0,0,-4)` (distance 4 → LOD factor 0.7) gets scale exactly 0.7 on a fresh
pass, and a marker directly behind the camera at `(0,0,4)` is culled to
scale 0. -/
theorem framePass_fresh_witness :
    Frustum.containsPoint persFrustum ⟨0, 0, -4⟩ ∧
      framePass persFrustum ⟨0, 0, 0⟩ (initMatrix ⟨0, 0, -4⟩)
        = uniformMatrix ⟨0, 0, -4⟩ 0.7 ∧
      ¬ Frustum.containsPoint persFrustum ⟨0, 0, 4⟩ ∧
      framePass persFrustum ⟨0, 0, 0⟩ (initMatrix ⟨0, 0, 4⟩)
        = uniformMatrix ⟨0, 0, 4⟩ 0 := by
  have hd : Vector3.distanceTo ⟨0, 0, 0⟩ ⟨0, 0, -4⟩ = 4 := by
    rw [show (Vector3.mk 0 0 (-4)) = ⟨0, 0, -(4:ℝ)⟩ from rfl]
    exact distanceTo_origin_negz 4 (by norm_num)
  have hlod : lodScale (Vector3.distanceTo ⟨0, 0, 0⟩ ⟨0, 0, -4⟩) = 0.7 := by
    rw [hd]
    unfold lodScale
    rw [if_neg (by norm_num), if_pos (by norm_num)]
  have h1 := (framePass_fresh persFrustum ⟨0, 0, 0⟩ ⟨0, 0, -4⟩).1 persFrustum_contains_center
  rw [hlod] at h1
  have h2 := (framePass_fresh persFrustum ⟨0, 0, 0⟩ ⟨0, 0, 4⟩).2 persFrustum_not_contains_behind
  exact ⟨persFrustum_contains_center, h1, persFrustum_not_contains_behind, h2⟩

theorem framePass_scaleZero (f : Frustum) (cam : Vector3) {m : Matrix4} (h : m.scaleZero) :
    (framePass f cam m).scaleZero ∧ (framePass f cam m).e12 = m.e12 ∧
      (framePass f cam m).e13 = m.e13 ∧ (framePass f cam m).e14 = m.e14 := by
  obtain ⟨h0, h1, h2, h3, h4, h5, h6, h7, h8, h9, h10, h11⟩ := h
  unfold framePass
  split <;>
    simp [Matrix4.scale, Matrix4.scaleZero, h0, h1, h2, h3, h4, h5, h6, h7, h8, h9, h10, h11]

/-- C10: the per-frame pass composes the chosen scale multiplicatively with
the stored matrix, so zero scale is absorbing: once an instance's linear
block is zero it stays zero across any sequence of subsequent passes — with
arbitrary frustums and camera positions, in particular ones containing the
instance's (unchanged) stored position — until a rebuild resets the matrix. -/
theorem scale_zero_absorbing (frames : List (Frustum × Vector3)) (m : Matrix4)
    (h : m.scaleZero) :
    (frames.foldl (fun acc fr => framePass fr.1 fr.2 acc) m).scaleZero ∧
      (frames.foldl (fun acc fr => framePass fr.1 fr.2 acc) m).e12 = m.e12 ∧
      (frames.foldl (fun acc fr => framePass fr.1 fr.2 acc) m).e13 = m.e13 ∧
      (frames.foldl (fun acc fr => framePass fr.1 fr.2 acc) m).e14 = m.e14 := by
  induction frames generalizing m with
  | nil => exact ⟨h, rfl, rfl, rfl⟩
  | cons fr rest ih =>
    simp only [List.foldl_cons]
    obtain ⟨hz, h12, h13, h14⟩ := framePass_scaleZero fr.1 fr.2 h
    obtain ⟨hz2, h12b, h13b, h14b⟩ := ih (framePass fr.1 fr.2 m) hz
    exact ⟨hz2, by rw [h12b, h12], by rw [h13b, h13], by rw [h14b, h14]⟩

/-- C10 witness: a zero-scaled instance at `(0,0,-4)` stays zero-scaled
through a further pass even though the frustum contains its position. -/
theorem scale_zero_absorbing_witness :
    (uniformMatrix ⟨0, 0, -4⟩ 0).scaleZero ∧
      Frustum.containsPoint persFrustum ⟨0, 0, -4⟩ ∧
      ([((persFrustum : Frustum), Vector3.mk 0 0 0)].foldl
          (fun acc fr => framePass fr.1 fr.2 acc) (uniformMatrix ⟨0, 0, -4⟩ 0)).scaleZero := by
  have hz : (uniformMatrix ⟨0, 0, -4⟩ 0).scaleZero := by
    unfold uniformMatrix Matrix4.scaleZero
    norm_num
  exact ⟨hz, persFrustum_contains_center, (scale_zero_absorbing _ _ hz).1⟩

/-! ## Scene Composer: connection resolution (`src/components/Scene.tsx`) -/

/-- The fields of `CustomMarker` relevant to connection rendering. -/
structure CustomMarker where
  id : String
  longitude : ℝ
  latitude : ℝ

/-- A `MarkerConnection` references its endpoints by marker id. -/
structure MarkerConnection where
  id : String
  fromMarkerId : String
  toMarkerId : String

/-- From `Scene.tsx` lines 466–489: each connection resolves both endpoints with
`customMarkers.find(m => m.id === connection.fromMarkerId)` (resp.
`toMarkerId`); `if (!fromMarker || !toMarker) return null` — no
`MarkerConnector` is rendered. `some (from, to)` stands for the rendered
`MarkerConnector` element with those resolved marker props. -/
def resolveConnection (customMarkers : List CustomMarker)
    (connection : MarkerConnection) : Option (CustomMarker × CustomMarker) :=
  match customMarkers.find? (fun m => m.id == connection.fromMarkerId),
      customMarkers.find? (fun m => m.id == connection.toMarkerId) with
  | some fromMarker, some toMarker => some (fromMarker, toMarker)
  | _, _ => none

/-- The scene's connector children: `connections.map(...)`, one (possibly
null) entry per connection. -/
def renderConnections (customMarkers : List CustomMarker)
    (connections : List MarkerConnection) : List (Option (CustomMarker × CustomMarker)) :=
  connections.map (resolveConnection customMarkers)

/-- C7: for every marker list and every connection list, a connection whose
`fromMarkerId` or `toMarkerId` does not resolve renders no geometry: its
entry in the scene's children is `none` (and the total function raises no
error). -/
theorem unresolved_connection_renders_nothing (customMarkers : List CustomMarker)
    (connections : List MarkerConnection) (c : MarkerConnection) (hc : c ∈ connections)
    (h : customMarkers.find? (fun m => m.id == c.fromMarkerId) = none ∨
        customMarkers.find? (fun m => m.id == c.toMarkerId) = none) :
    resolveConnection customMarkers c = none ∧
      none ∈ renderConnections customMarkers connections := by
  have hres : resolveConnection customMarkers c = none := by
    unfold resolveConnection
    rcases h with h | h
    · rw [h]
    · rw [h]
      cases customMarkers.find? (fun m => m.id == c.fromMarkerId) <;> rfl
  exact ⟨hres, List.mem_map.mpr ⟨c, hc, hres⟩⟩

/-- C7 witness: a connection to the nonexistent marker id `"ghost"` renders
nothing. -/
theorem unresolved_connection_witness :
    (MarkerConnection.mk "c1" "m1" "ghost") ∈ [MarkerConnection.mk "c1" "m1" "ghost"] ∧
      [CustomMarker.mk "m1" 10 20].find? (fun m => m.id == "ghost") = none ∧
      resolveConnection [CustomMarker.mk "m1" 10 20]
        (MarkerConnection.mk "c1" "m1" "ghost") = none ∧
      none ∈ renderConnections [CustomMarker.mk "m1" 10 20]
        [MarkerConnection.mk "c1" "m1" "ghost"] := by
  have hc : (MarkerConnection.mk "c1" "m1" "ghost")
      ∈ [MarkerConnection.mk "c1" "m1" "ghost"] := List.mem_singleton.mpr rfl
  have hfind : [CustomMarker.mk "m1" 10 20].find? (fun m => m.id == "ghost") = none := rfl
  have h := unresolved_connection_renders_nothing [CustomMarker.mk "m1" 10 20]
    [MarkerConnection.mk "c1" "m1" "ghost"] (MarkerConnection.mk "c1" "m1" "ghost")
    hc (Or.inr hfind)
  exact ⟨hc, hfind, h.1, h.2⟩

/-! ## Screen Anchor Projector (`ConnectorCalculator` in `UnifiedToolbar.tsx`) -/

/-- three.js `Vector3.applyMatrix4` (with perspective divide
`w = 1/(e3 x + e7 y + e11 z + e15)`). -/
def Vector3.applyMatrix4 (v : Vector3) (m : Matrix4) : Vector3 :=
  ⟨(m.e0 * v.x + m.e4 * v.y + m.e8 * v.z + m.e12)
      * (1 / (m.e3 * v.x + m.e7 * v.y + m.e11 * v.z + m.e15)),
    (m.e1 * v.x + m.e5 * v.y + m.e9 * v.z + m.e13)
      * (1 / (m.e3 * v.x + m.e7 * v.y + m.e11 * v.z + m.e15)),
    (m.e2 * v.x + m.e6 * v.y + m.e10 * v.z + m.e14)
      * (1 / (m.e3 * v.x + m.e7 * v.y + m.e11 * v.z + m.e15))⟩

/-- The camera state used by `ConnectorCalculator`. -/
structure Camera where
  matrixWorldInverse : Matrix4
  projectionMatrix : Matrix4
  position : Vector3

/-- three.js `Vector3.project(camera)`:
`applyMatrix4(matrixWorldInverse)` then `applyMatrix4(projectionMatrix)`. -/
def Vector3.project (v : Vector3) (camera : Camera) : Vector3 :=
  (v.applyMatrix4 camera.matrixWorldInverse).applyMatrix4 camera.projectionMatrix

/-- The per-binding visibility computed by `ConnectorCalculator`
(`UnifiedToolbar.tsx` lines 279–308): `visible = projected.z < 1 &&
projected.z > -1`, and in spherical mode, if additionally
`normalize(markerPos) · normalize(camera.position - markerPos) ≤ 0.1`
(not facing the camera) then `visible = false`. -/
def connectorVisible (isFlatMode : Bool) (camera : Camera) (markerPos : Vector3) : Prop :=
  if isFlatMode = false ∧ ((markerPos.project camera).z < 1 ∧ (markerPos.project camera).z > -1) then
    (if (markerPos.normalize).dot ((camera.position.sub markerPos).normalize) > 0.1
      then ((markerPos.project camera).z < 1 ∧ (markerPos.project camera).z > -1)
      else False)
  else ((markerPos.project camera).z < 1 ∧ (markerPos.project camera).z > -1)

/-- C8: a binding's connector is marked visible iff the marker's projected
NDC depth satisfies `-1 < z < 1` and — in spherical mode only — the dot
product of the marker's outward unit normal with the unit vector from the
marker toward the camera exceeds `0.1`. -/
theorem connector_visibility_iff (isFlatMode : Bool) (camera : Camera)
    (markerPos : Vector3) :
    connectorVisible isFlatMode camera markerPos ↔
      (-1 < (markerPos.project camera).z ∧ (markerPos.project camera).z < 1) ∧
        (isFlatMode = true ∨
          (markerPos.normalize).dot ((camera.position.sub markerPos).normalize) > 0.1) := by
  unfold connectorVisible
  cases isFlatMode with
  | true => simp [and_comm]
  | false =>
    by_cases hv : ((markerPos.project camera).z < 1 ∧ (markerPos.project camera).z > -1)
    · by_cases hdot :
          (markerPos.normalize).dot ((camera.position.sub markerPos).normalize) > 0.1 <;>
        simp [hv, hdot, hv.1, hv.2, and_comm]
    · simp only [Bool.false_eq_true, false_or, true_and]
      rw [if_neg (by simp [hv])]
      constructor
      · intro hcon
        exact absurd hcon hv
      · intro hcon
        exact absurd ⟨hcon.1.2, hcon.1.1⟩ hv

end

end Mapmap
